import Mathlib

/-!
Verification of the ghacron reconcile–schedule–dispatch engine against its
natural-language specification.  The Go source is embedded shallowly:

* `ParseAnnotations` / `HasWorkflowDispatch` — the annotation parser
  (scanner package), including a faithful embedding of the Go regexp
  `^\s*#\s*ghacron:\s*["'](.+?)["']\s*$` with leftmost-first (lazy) capture
  semantics.
* `sha256` / `variableName` — the StateManager's durable-variable naming
  (state.go), with a full executable SHA-256.
* `AddJob` / `RemoveJob` / `Reconcile` — the scheduler registry and the
  reconciler loop body; the cron-expression validator of the external
  robfig/cron library is abstracted as a `String → Bool` parameter.
* `createJobHandler` — the dispatch handler state machine, recording the
  platform-client calls (GetVariable / SetVariable / DispatchWorkflow) it
  issues, its terminal state, and the final durable value.
-/

namespace Ghacron

/-! ## Character classes

Two distinct whitespace notions appear in the source: `goSpace` is Go's
`unicode.IsSpace` (used by `strings.TrimSpace`), and `reSpace` is the
regexp character class `\s`, which in Go's RE2 is exactly `[\t\n\f\r ]`. -/

/-- Go `unicode.IsSpace`: the Unicode White_Space property. -/
def goSpace (c : Char) : Bool :=
  let n := c.toNat
  decide ((9 ≤ n ∧ n ≤ 13) ∨ n = 32 ∨ n = 133 ∨ n = 160 ∨ n = 5760 ∨
    (8192 ≤ n ∧ n ≤ 8202) ∨ n = 8232 ∨ n = 8233 ∨ n = 8239 ∨ n = 8287 ∨ n = 12288)

/-- The RE2 character class `\s`, i.e. `[\t\n\f\r ]`. -/
def reSpace (c : Char) : Bool :=
  decide (c.toNat = 9 ∨ c.toNat = 10 ∨ c.toNat = 12 ∨ c.toNat = 13 ∨ c.toNat = 32)

/-- The RE2 character class `["']` used by the annotation regexp. -/
def isQuote (c : Char) : Bool :=
  decide (c.toNat = 34 ∨ c.toNat = 39)

/-- Go `strings.TrimSpace` on a character list: drop `goSpace` characters
from both ends. -/
def trimGo (l : List Char) : List Char :=
  ((l.dropWhile goSpace).reverse.dropWhile goSpace).reverse

/-- Go `strings.Split(content, "\n")`: split into lines at each newline;
the empty string yields one empty line. -/
def splitNl : List Char → List (List Char)
  | [] => [[]]
  | c :: cs =>
    let r := splitNl cs
    if c = Char.ofNat 10 then [] :: r
    else (c :: r.headD []) :: r.tail

/-- Go `strings.Contains pat` on character lists. -/
def containsSeq (pat : List Char) : List Char → Bool
  | [] => pat.isEmpty
  | c :: cs => pat.isPrefixOf (c :: cs) || containsSeq pat cs

/-! ## Annotation parser (scanner package)

`annotationRe = regexp.MustCompile("^\\s*#\\s*ghacron:\\s*[\"'](.+?)[\"']\\s*$")`.
The regexp is fully anchored and every quantifier choice is forced except the
lazy capture `(.+?)`, whose leftmost-first semantics select the shortest
nonempty capture whose closing quote is followed only by `\s` characters.
`findCapture` scans the candidate closing positions in that (lazy) order. -/

/-- The fixed sentinel literal `ghacron:` of the annotation regexp. -/
def sentinelChars : List Char := ("ghacron:").data

/-- Candidate closing quotes in lazy order: return the shortest accumulated
capture whose next character is a quote followed only by `\s` characters. -/
def findCapture (acc : List Char) : List Char → Option (List Char)
  | [] => none
  | c :: cs =>
    if isQuote c && cs.all reSpace then some acc.reverse
    else findCapture (c :: acc) cs

/-- The part of the regexp after the opening quote: the lazy nonempty
capture `(.+?)` followed by a quote and trailing `\s*$`. -/
def matchAfterQuote : List Char → Option (List Char)
  | [] => none
  | c0 :: cs => findCapture [c0] cs

/-- The part of the regexp after the sentinel and its trailing `\s*`: an
opening quote, then the capture. -/
def matchAfterSentinel : List Char → Option (List Char)
  | [] => none
  | q :: rest => if isQuote q then matchAfterQuote rest else none

/-- The part of the regexp after the `#`: `\s*`, the sentinel literal,
`\s*`, then the quoted capture. -/
def matchAfterHash (r : List Char) : Option (List Char) :=
  let r1 := r.dropWhile reSpace
  if sentinelChars.isPrefixOf r1 then
    matchAfterSentinel ((r1.drop sentinelChars.length).dropWhile reSpace)
  else none

/-- One line against `annotationRe`: `none` when the line does not match,
otherwise the capture group (the raw expression between the quotes). -/
def matchLine (l : List Char) : Option (List Char) :=
  match l.dropWhile reSpace with
  | [] => none
  | c :: r => if c = Char.ofNat 35 then matchAfterHash r else none

/-- Every quote character of `l` is followed (strictly later in `l`) by some
character that is not in the class `\s`.  A line with this property cannot
match the annotation regexp, whose closing quote must be followed only by
`\s` characters. -/
def QuoteFollowed (l : List Char) : Prop :=
  ∀ l1 c l2, l = l1 ++ c :: l2 → isQuote c = true → ∃ d ∈ l2, reSpace d = false

/-- `ParseAnnotations` extracts cron annotations from workflow file content:
per line, apply the annotation regexp, trim the capture, drop empty results,
preserving order of occurrence. -/
def ParseAnnotations (content : String) : List String :=
  (splitNl content.data).filterMap fun l =>
    match matchLine l with
    | some cap =>
      let e := trimGo cap
      if e.isEmpty then none else some (String.mk e)
    | none => none

/-- A trimmed line that enters the `on:` section: it equals `on:` or begins
with `on:`. -/
def onEntryLine (t : List Char) : Bool :=
  decide (t = ("on:").data) || ("on:").data.isPrefixOf t

/-- The characters of the substring `workflow_dispatch` searched for. -/
def wdChars : List Char := ("workflow_dispatch").data

/-- The raw-line condition under which `HasWorkflowDispatch` leaves the
`on:` section: nonempty, first character neither space nor tab, and the
trimmed content nonempty. -/
def exitLine (l t : List Char) : Bool :=
  match l with
  | [] => false
  | c :: _ => !(c == Char.ofNat 32) && !(c == Char.ofNat 9) && !t.isEmpty

/-- Line loop of `HasWorkflowDispatch`, carrying the `inOn` flag. -/
def hwdGo : Bool → List (List Char) → Bool
  | _, [] => false
  | inOn, l :: ls =>
    let t := trimGo l
    if onEntryLine t then
      if containsSeq wdChars t then true else hwdGo true ls
    else if inOn then
      if exitLine l t then hwdGo false ls
      else if containsSeq wdChars t then true
      else hwdGo true ls
    else hwdGo inOn ls

/-- `HasWorkflowDispatch` checks whether `workflow_dispatch` occurs in the
`on:` section of the file content. -/
def HasWorkflowDispatch (content : String) : Bool :=
  hwdGo false (splitNl content.data)

/-! ## SHA-256 (crypto/sha256, as used by `variableName`)

Bytes are `Nat`s below 256; 32-bit words are `Nat`s reduced modulo `2^32`. -/

/-- Reduce to a 32-bit word. -/
def w32 (x : Nat) : Nat := x % 4294967296

/-- Right rotation of a 32-bit word. -/
def rotr32 (n x : Nat) : Nat := w32 ((x >>> n) ||| (x <<< (32 - n)))

/-- Big-endian byte serialization of `x` into `k` bytes. -/
def beBytes : Nat → Nat → List Nat
  | 0, _ => []
  | k + 1, x => beBytes k (x / 256) ++ [x % 256]

/-- Big-endian 32-bit word from a list of bytes. -/
def beWord (bs : List Nat) : Nat := bs.foldl (fun acc b => acc * 256 + b) 0

/-- Split a list into chunks of `k` elements (fuel-driven). -/
def chunkF (k : Nat) : Nat → List Nat → List (List Nat)
  | 0, _ => []
  | _, [] => []
  | fuel + 1, l => l.take k :: chunkF k fuel (l.drop k)

/-- Split a list into chunks of `k` elements. -/
def chunk (k : Nat) (l : List Nat) : List (List Nat) := chunkF k l.length l

/-- SHA-256 message padding: `0x80`, zeros to 56 mod 64, then the bit length
as 8 big-endian bytes. -/
def shaPad (msg : List Nat) : List Nat :=
  msg ++ [128] ++ List.replicate ((119 - msg.length % 64) % 64) 0 ++
    beBytes 8 (msg.length * 8)

/-- The 64 SHA-256 round constants (FIPS 180-4, written in decimal). -/
def shaK : List Nat :=
  [1116352408, 1899447441, 3049323471, 3921009573, 961987163,
   1508970993, 2453635748, 2870763221, 3624381080, 310598401,
   607225278, 1426881987, 1925078388, 2162078206, 2614888103,
   3248222580, 3835390401, 4022224774, 264347078, 604807628,
   770255983, 1249150122, 1555081692, 1996064986, 2554220882,
   2821834349, 2952996808, 3210313671, 3336571891, 3584528711,
   113926993, 338241895, 666307205, 773529912, 1294757372,
   1396182291, 1695183700, 1986661051, 2177026350, 2456956037,
   2730485921, 2820302411, 3259730800, 3345764771, 3516065817,
   3600352804, 4094571909, 275423344, 430227734, 506948616,
   659060556, 883997877, 958139571, 1322822218, 1537002063,
   1747873779, 1955562222, 2024104815, 2227730452, 2361852424,
   2428436474, 2756734187, 3204031479, 3329325298]

/-- The SHA-256 working variables. -/
structure Digest where
  a : Nat
  b : Nat
  c : Nat
  d : Nat
  e : Nat
  f : Nat
  g : Nat
  h : Nat

/-- The SHA-256 initial hash value (FIPS 180-4, written in decimal). -/
def shaH0 : Digest :=
  ⟨1779033703, 3144134277, 1013904242, 2773480762,
   1359893119, 2600822924, 528734635, 1541459225⟩

/-- Small sigma 0 of the message schedule. -/
def ssig0 (x : Nat) : Nat := (rotr32 7 x) ^^^ (rotr32 18 x) ^^^ (x >>> 3)

/-- Small sigma 1 of the message schedule. -/
def ssig1 (x : Nat) : Nat := (rotr32 17 x) ^^^ (rotr32 19 x) ^^^ (x >>> 10)

/-- Big sigma 0 of the compression function. -/
def bsig0 (x : Nat) : Nat := (rotr32 2 x) ^^^ (rotr32 13 x) ^^^ (rotr32 22 x)

/-- Big sigma 1 of the compression function. -/
def bsig1 (x : Nat) : Nat := (rotr32 6 x) ^^^ (rotr32 11 x) ^^^ (rotr32 25 x)

/-- Extend the 16 block words to the 64-word message schedule. -/
def extendW : Nat → List Nat → List Nat
  | 0, ws => ws
  | n + 1, ws =>
    let len := ws.length
    let w := w32 (ssig1 (ws.getD (len - 2) 0) + ws.getD (len - 7) 0 +
      ssig0 (ws.getD (len - 15) 0) + ws.getD (len - 16) 0)
    extendW n (ws ++ [w])

/-- One SHA-256 compression round. -/
def compress1 (s : Digest) (k w : Nat) : Digest :=
  let ch := (s.e &&& s.f) ^^^ ((s.e ^^^ 4294967295) &&& s.g)
  let maj := (s.a &&& s.b) ^^^ (s.a &&& s.c) ^^^ (s.b &&& s.c)
  let t1 := w32 (s.h + bsig1 s.e + ch + k + w)
  let t2 := w32 (bsig0 s.a + maj)
  ⟨w32 (t1 + t2), s.a, s.b, s.c, w32 (s.d + t1), s.e, s.f, s.g⟩

/-- Process one 16-word block against the running digest. -/
def processBlock (st : Digest) (block : List Nat) : Digest :=
  let ws := extendW 48 block
  let r := (shaK.zip ws).foldl (fun s kw => compress1 s kw.1 kw.2) st
  ⟨w32 (st.a + r.a), w32 (st.b + r.b), w32 (st.c + r.c), w32 (st.d + r.d),
   w32 (st.e + r.e), w32 (st.f + r.f), w32 (st.g + r.g), w32 (st.h + r.h)⟩

/-- SHA-256 of a byte list, as its 32 digest bytes. -/
def sha256 (msg : List Nat) : List Nat :=
  let blocks := (chunk 64 (shaPad msg)).map fun blk => (chunk 4 blk).map beWord
  let d := blocks.foldl processBlock shaH0
  beBytes 4 d.a ++ beBytes 4 d.b ++ beBytes 4 d.c ++ beBytes 4 d.d ++
    beBytes 4 d.e ++ beBytes 4 d.f ++ beBytes 4 d.g ++ beBytes 4 d.h

/-- UTF-8 encoding of one character (Go `[]byte` on a string). -/
def utf8Char (c : Char) : List Nat :=
  let n := c.toNat
  if n < 128 then [n]
  else if n < 2048 then [192 ||| (n >>> 6), 128 ||| (n &&& 63)]
  else if n < 65536 then
    [224 ||| (n >>> 12), 128 ||| ((n >>> 6) &&& 63), 128 ||| (n &&& 63)]
  else
    [240 ||| (n >>> 18), 128 ||| ((n >>> 12) &&& 63),
     128 ||| ((n >>> 6) &&& 63), 128 ||| (n &&& 63)]

/-- UTF-8 bytes of a string. -/
def utf8Bytes (s : String) : List Nat :=
  s.data.foldr (fun c acc => utf8Char c ++ acc) []

/-! ## Data model (github/types.go) -/

/-- A cron desire discovered in a workflow file (`CronAnnotation` in the
source; the name is shortened here). -/
structure CronAnnot where
  Owner : String
  Repo : String
  WorkflowFile : String
  CronExpr : String
  Ref : String
deriving DecidableEq

/-- The identity under which jobs are registered (`CronJobKey`). -/
structure CronJobKey where
  Owner : String
  Repo : String
  WorkflowFile : String
  CronExpr : String
deriving DecidableEq

/-- `Key` projects an annotation to its job key. -/
def CronAnnot.Key (a : CronAnnot) : CronJobKey :=
  ⟨a.Owner, a.Repo, a.WorkflowFile, a.CronExpr⟩

/-- An annotation that failed cron validation (`SkippedAnnotation` in the
source; the name is shortened here). -/
structure SkippedAnnot where
  Owner : String
  Repo : String
  WorkflowFile : String
  CronExpr : String
  Reason : String
deriving DecidableEq

/-! ## State store naming (scheduler/state.go) -/

/-- The sixteen uppercase hexadecimal digits, in value order. -/
def hexDigits : List Char := ("0123456789ABCDEF").data

/-- The uppercase hexadecimal digit of a value below 16. -/
def hexDigit (n : Nat) : Char := hexDigits.getD n (Char.ofNat 48)

/-- Go `%X` of one byte: two uppercase hexadecimal digits (for `b < 256`,
`b / 16 % 16 = b / 16`, the high nibble). -/
def hexByte (b : Nat) : List Char := [hexDigit (b / 16 % 16), hexDigit (b % 16)]

/-- Go `fmt.Sprintf("%X", bs)` on a byte slice. -/
def hexUpper (bs : List Nat) : List Char := (bs.map hexByte).flatten

/-- `variableName` as a function of the two strings it reads:
`GHACRON_LAST_` followed by the uppercase hex of the first 4 bytes of
`SHA-256(workflowFile ++ ":" ++ cronExpr)`. -/
def variableNameOf (workflowFile cronExpr : String) : String :=
  let input := workflowFile ++ ":" ++ cronExpr
  let hash := sha256 (utf8Bytes input)
  ("GHACRON_LAST_") ++ String.mk (hexUpper (hash.take 4))

/-- `variableName` generates the durable variable name of an annotation. -/
def variableName (a : CronAnnot) : String :=
  variableNameOf a.WorkflowFile a.CronExpr

/-! ## Scheduler registry and reconciler (scheduler package)

The external robfig/cron parser is abstracted as `valid : String → Bool`
(`cron.AddFunc` fails exactly when the expression does not parse), and
`cron.AddFunc`'s returned `EntryID` as a fresh `Nat`.  The scheduler's
skipped-list storage and the reconciler's publication step are modelled
from the spec (see `SetSkippedAnnotations`). -/

/-- The scheduler's mutable state: the registration map (as an association
list keyed by `CronJobKey`), the cron engine's entries (entry id paired with
the annotation captured by the handler closure), the next fresh entry id,
and the last published skipped list. -/
structure SchedulerModel where
  registeredJobs : List (CronJobKey × Nat)
  cronEntries : List (Nat × CronAnnot)
  nextId : Nat
  skippedList : List SkippedAnnot
deriving DecidableEq

/-- Find the registered entry id of a key, if any. -/
def lookupJob (s : SchedulerModel) (k : CronJobKey) : Option (CronJobKey × Nat) :=
  s.registeredJobs.find? fun p => decide (p.1 = k)

/-- `AddJob` registers a cron job: a no-op returning no error when the key
is already registered; otherwise registers a fresh cron entry, or fails
(state unchanged) when the cron engine rejects the expression. -/
def AddJob (valid : String → Bool) (s : SchedulerModel) (a : CronAnnot) :
    SchedulerModel × Option Unit :=
  if (lookupJob s a.Key).isSome then (s, none)
  else if valid a.CronExpr then
    ({ s with
        cronEntries := s.cronEntries ++ [(s.nextId, a)],
        registeredJobs := s.registeredJobs ++ [(a.Key, s.nextId)],
        nextId := s.nextId + 1 }, none)
  else (s, some ())

/-- `RemoveJob` removes a registered cron job, if present. -/
def RemoveJob (s : SchedulerModel) (k : CronJobKey) : SchedulerModel :=
  match lookupJob s k with
  | some (_, eid) =>
    { s with
        cronEntries := s.cronEntries.filter fun e => !decide (e.1 = eid),
        registeredJobs := s.registeredJobs.filter fun p => !decide (p.1 = k) }
  | none => s

/-- Modelled from the spec: the scheduler's skipped-list setter.  The
revision of scheduler.go that stores the reconciler's skipped list (called
out by `StatusProvider.GetSkippedAnnotations` in api/server.go and by the
plan document) is not part of the sources; per the spec, publication
replaces the previously published list. -/
def SetSkippedAnnotations (s : SchedulerModel) (sk : List SkippedAnnot) :
    SchedulerModel :=
  { s with skippedList := sk }

/-- Modelled from the spec: the observation-surface getter returning the
last published skipped list. -/
def GetSkippedAnnotations (s : SchedulerModel) : List SkippedAnnot :=
  s.skippedList

/-- The scanner's result: valid annotations plus skipped entries. -/
structure ScanRes where
  Annotations : List CronAnnot
  Skipped : List SkippedAnnot
deriving DecidableEq

/-- Go map assignment on an association list: replace the key's entry if
present, else append. -/
def upsert (m : List (CronJobKey × CronAnnot)) (k : CronJobKey) (a : CronAnnot) :
    List (CronJobKey × CronAnnot) :=
  if (m.find? fun p => decide (p.1 = k)).isSome then
    m.map fun p => if p.1 = k then (k, a) else p
  else m ++ [(k, a)]

/-- `Reconcile` performs one convergence pass: scan, diff desired against
actual, apply additions (failures ignored) and removals, and publish the
skipped list (the publication step is modelled from the spec, see
`SetSkippedAnnotations`).  The scan outcome is passed in as `scan`. -/
def Reconcile (valid : String → Bool) (scan : Except Unit ScanRes)
    (s : SchedulerModel) : SchedulerModel × Option Unit :=
  match scan with
  | .error _ => (s, some ())
  | .ok result =>
    let desired := result.Annotations.foldl (fun m a => upsert m a.Key a) []
    let actualKeys := s.registeredJobs.map (·.1)
    let toAdd := desired.filter fun p => !(actualKeys.contains p.1)
    let toRemove := actualKeys.filter fun k =>
      !((desired.find? fun p => decide (p.1 = k)).isSome)
    let s1 := toAdd.foldl (fun st p => (AddJob valid st p.2).1) s
    let s2 := toRemove.foldl RemoveJob s1
    (SetSkippedAnnotations s2 result.Skipped, none)

/-! ## Dispatch handler (scheduler.go `createJobHandler`)

Instants are integers (the zero instant is `0`, representing Go's zero
`time.Time`, to which both an absent/empty variable and the RFC3339 zero
timestamp parse); durations are in nanoseconds, so the guard window is
`DuplicateGuardSeconds * 1000000000`.  The environment fixes the durable
variable's current parsed value and which of the four remote calls fail;
`getErr` covers both a transport failure of `GetVariable` and an RFC3339
parse failure, in both of which `GetLastDispatchTime` returns the zero
instant and a non-nil error.  The single instant `now` stands for the
handler's `time.Since` reference and its later `time.Now()` (the claims do
not distinguish the two reads of the clock). -/

/-- A remote platform-client call made by the handler.  Each
`GetLastDispatchTime` issues exactly one `GetVariable` and each
`SetLastDispatchTime` exactly one `SetVariable` (state.go). -/
inductive DEvent where
  | getVariable
  | setVariable (t : Int)
  | dispatchWorkflow
deriving DecidableEq

/-- The terminal state of one handler invocation. -/
inductive DTerminal where
  | guarded
  | dryRun
  | preSaveFailed
  | ok
  | rolledBack
  | rollbackFailed
  | dispatchFailedNoRollback
deriving DecidableEq

/-- The environment of one handler invocation. -/
structure DispatchEnv where
  world : Int
  getErr : Bool
  preSaveErr : Bool
  dispatchErr : Bool
  rollbackErr : Bool
  dryRun : Bool
  guardSeconds : Int
  now : Int
deriving DecidableEq

/-- The observable outcome of one handler invocation: the remote calls in
order, the terminal state, and the final durable value. -/
structure HandlerRun where
  events : List DEvent
  terminal : DTerminal
  finalVar : Int
deriving DecidableEq

/-- The dispatch handler: duplicate guard (fail-open on read error), dry-run
branch, pre-save of `now`, dispatch, and rollback to the previously read
value on dispatch failure when the initial read succeeded.  The value
`lastDispatch` read at step 1 is `env.world` when the read succeeded and
the zero instant otherwise; the guard and rollback branches below are taken
only under `env.getErr = false`, where it equals `env.world`. -/
def createJobHandler (env : DispatchEnv) : HandlerRun :=
  if env.getErr = false ∧ env.world ≠ 0 ∧
      env.now - env.world < env.guardSeconds * 1000000000 then
    ⟨[.getVariable], .guarded, env.world⟩
  else if env.dryRun = true then
    ⟨[.getVariable], .dryRun, env.world⟩
  else if env.preSaveErr = true then
    ⟨[.getVariable, .setVariable env.now], .preSaveFailed, env.world⟩
  else if env.dispatchErr = true then
    if env.getErr = false then
      if env.rollbackErr = true then
        ⟨[.getVariable, .setVariable env.now, .dispatchWorkflow, .setVariable env.world],
         .rollbackFailed, env.now⟩
      else
        ⟨[.getVariable, .setVariable env.now, .dispatchWorkflow, .setVariable env.world],
         .rolledBack, env.world⟩
    else
      ⟨[.getVariable, .setVariable env.now, .dispatchWorkflow],
       .dispatchFailedNoRollback, env.now⟩
  else
    ⟨[.getVariable, .setVariable env.now, .dispatchWorkflow], .ok, env.now⟩

/-! ## Dispatch-handler theorems -/

/-- C1: in every handler invocation that reaches the dispatch step and calls
the platform client's dispatch successfully, the pre-save
`SetLastDispatch(now)` was called and returned without error before the
dispatch call. -/
theorem presave_precedes_dispatch (env : DispatchEnv)
    (hd : DEvent.dispatchWorkflow ∈ (createJobHandler env).events)
    (hok : env.dispatchErr = false) :
    env.preSaveErr = false ∧
    (createJobHandler env).events =
      [.getVariable, .setVariable env.now, .dispatchWorkflow] ∧
    ∃ i j, i < j ∧
      (createJobHandler env).events.get? i = some (.setVariable env.now) ∧
      (createJobHandler env).events.get? j = some .dispatchWorkflow := by
  unfold createJobHandler at *
  split_ifs at * with h1 h2 h3 h4 <;> simp_all
  exact ⟨1, 2, by omega, rfl, rfl⟩

/-- C1 witness. -/
theorem presave_precedes_dispatch_witness :
    (DEvent.dispatchWorkflow ∈
      (createJobHandler ⟨0, false, false, false, false, false, 60, 100⟩).events) ∧
    ((⟨0, false, false, false, false, false, 60, 100⟩ : DispatchEnv).preSaveErr = false ∧
      (createJobHandler ⟨0, false, false, false, false, false, 60, 100⟩).events =
        [.getVariable, .setVariable 100, .dispatchWorkflow] ∧
      ∃ i j, i < j ∧
        (createJobHandler ⟨0, false, false, false, false, false, 60, 100⟩).events.get? i =
          some (.setVariable 100) ∧
        (createJobHandler ⟨0, false, false, false, false, false, 60, 100⟩).events.get? j =
          some .dispatchWorkflow) :=
  ⟨by decide,
   presave_precedes_dispatch ⟨0, false, false, false, false, false, 60, 100⟩
     (by decide) (by decide)⟩

/-- C2: when the initial read succeeded and the dispatch call failed, the
handler rolls back, so (the rollback write succeeding) the final durable
value equals the value read at step 1. -/
theorem rollback_restores_prev (env : DispatchEnv)
    (hget : env.getErr = false) (hde : env.dispatchErr = true)
    (hrb : env.rollbackErr = false)
    (hd : DEvent.dispatchWorkflow ∈ (createJobHandler env).events) :
    (createJobHandler env).finalVar = env.world ∧
    (createJobHandler env).terminal = .rolledBack := by
  unfold createJobHandler at *
  split_ifs at * <;> simp_all

/-- C2 witness. -/
theorem rollback_restores_prev_witness :
    ((createJobHandler ⟨7, false, false, true, false, false, 0, 1000000000000⟩).finalVar = 7 ∧
     (createJobHandler ⟨7, false, false, true, false, false, 0, 1000000000000⟩).terminal =
       .rolledBack) :=
  rollback_restores_prev ⟨7, false, false, true, false, false, 0, 1000000000000⟩
    (by decide) (by decide) (by decide) (by decide)

/-- C3: when the initial read failed and the dispatch call also failed, no
rollback write is issued: the only `SetLastDispatch` write of the invocation
is the pre-save of `now`, which is left in place as the durable value. -/
theorem no_rollback_after_get_failure (env : DispatchEnv)
    (hget : env.getErr = true) (hde : env.dispatchErr = true)
    (hd : DEvent.dispatchWorkflow ∈ (createJobHandler env).events) :
    (createJobHandler env).events =
      [.getVariable, .setVariable env.now, .dispatchWorkflow] ∧
    (createJobHandler env).finalVar = env.now ∧
    (createJobHandler env).terminal = .dispatchFailedNoRollback := by
  unfold createJobHandler at *
  split_ifs at * <;> simp_all

/-- C3 witness. -/
theorem no_rollback_after_get_failure_witness :
    ((createJobHandler ⟨0, true, false, true, false, false, 60, 42⟩).events =
       [.getVariable, .setVariable 42, .dispatchWorkflow] ∧
     (createJobHandler ⟨0, true, false, true, false, false, 60, 42⟩).finalVar = 42 ∧
     (createJobHandler ⟨0, true, false, true, false, false, 60, 42⟩).terminal =
       .dispatchFailedNoRollback) :=
  no_rollback_after_get_failure ⟨0, true, false, true, false, false, 60, 42⟩
    (by decide) (by decide) (by decide)

/-- C4 counterexample: with the guard window configured to 0 the guard can
still abort an invocation — a stored timestamp in the future of `now` makes
`elapsed` negative, and `elapsed < 0` holds.  Here the durable value is
instant 2000000000 while `now` is 1000000000, and the invocation terminates
guarded, with no write and no dispatch, refuting "with guardWindow 0 the
guard never aborts any invocation, for every value of prev". -/
theorem guard_zero_counterexample :
    (⟨2000000000, false, false, false, false, false, 0, 1000000000⟩ :
      DispatchEnv).guardSeconds = 0 ∧
    (createJobHandler ⟨2000000000, false, false, false, false, false, 0,
      1000000000⟩).terminal = .guarded ∧
    (createJobHandler ⟨2000000000, false, false, false, false, false, 0,
      1000000000⟩).events = [.getVariable] := by
  refine ⟨rfl, ?_, ?_⟩ <;> decide

/-- C4 amended: the duplicate guard aborts — with no write and no dispatch —
exactly when the initial read succeeded, the previous timestamp is non-zero,
and `now - prev` is below the guard window; with guard window 0 it never
aborts provided the stored timestamp is not in the future of `now`. -/
theorem duplicate_guard_characterization (env : DispatchEnv) :
    ((createJobHandler env).terminal = .guarded ↔
      (env.getErr = false ∧ env.world ≠ 0 ∧
        env.now - env.world < env.guardSeconds * 1000000000)) ∧
    ((createJobHandler env).terminal = .guarded →
      (createJobHandler env).events = [.getVariable] ∧
      (createJobHandler env).finalVar = env.world) ∧
    (env.guardSeconds = 0 → env.world ≤ env.now →
      (createJobHandler env).terminal ≠ .guarded) := by
  have hiff : (createJobHandler env).terminal = DTerminal.guarded ↔
      (env.getErr = false ∧ env.world ≠ 0 ∧
        env.now - env.world < env.guardSeconds * 1000000000) := by
    unfold createJobHandler
    split_ifs with h1 h2 h3 h4 h5 h6 <;> simp_all
  refine ⟨hiff, ?_, ?_⟩
  · intro h
    have hG := hiff.mp h
    unfold createJobHandler
    rw [if_pos hG]
    exact ⟨rfl, rfl⟩
  · intro h0 hle h
    obtain ⟨_, _, hlt⟩ := hiff.mp h
    rw [h0] at hlt
    omega

/-- C4 amended witness: a guarded run (recent previous dispatch) observed
through the characterization, and a guard-0, past-timestamp run that is not
guarded. -/
theorem duplicate_guard_characterization_witness :
    ((createJobHandler ⟨90, false, false, false, false, false, 60, 100⟩).terminal =
       .guarded ∧
     (createJobHandler ⟨90, false, false, false, false, false, 60, 100⟩).events =
       [.getVariable]) ∧
    (createJobHandler ⟨90, false, false, false, false, false, 0, 100⟩).terminal ≠
      .guarded := by
  have h1 := duplicate_guard_characterization ⟨90, false, false, false, false, false, 60, 100⟩
  have h2 := duplicate_guard_characterization ⟨90, false, false, false, false, false, 0, 100⟩
  have hg : (createJobHandler ⟨90, false, false, false, false, false, 60, 100⟩).terminal =
      .guarded := h1.1.mpr (by refine ⟨rfl, by decide, by decide⟩)
  exact ⟨⟨hg, (h1.2.1 hg).1⟩, h2.2.2 rfl (by decide)⟩

/-- C10: in dry-run mode the handler still performs the remote read and
evaluates the duplicate guard before the dry-run branch: exactly one
`GetVariable` read, no `SetVariable` write, no dispatch call; a guarded
invocation terminates guarded (without the dry-run diagnostic), any other
terminates in the dry-run state. -/
theorem dryrun_no_side_effects (env : DispatchEnv) (hdry : env.dryRun = true) :
    (createJobHandler env).events = [.getVariable] ∧
    ((createJobHandler env).terminal = .guarded ↔
      (env.getErr = false ∧ env.world ≠ 0 ∧
        env.now - env.world < env.guardSeconds * 1000000000)) ∧
    ((createJobHandler env).terminal ≠ .guarded →
      (createJobHandler env).terminal = .dryRun) := by
  unfold createJobHandler
  split_ifs with h1 <;> simp_all [Bool.not_eq_true]

/-- C10 witness. -/
theorem dryrun_no_side_effects_witness :
    ((createJobHandler ⟨0, false, false, false, false, true, 60, 100⟩).events =
       [.getVariable] ∧
     ((createJobHandler ⟨0, false, false, false, false, true, 60, 100⟩).terminal =
        .guarded ↔
       ((false : Bool) = false ∧ (0 : Int) ≠ 0 ∧
         (100 : Int) - 0 < 60 * 1000000000)) ∧
     ((createJobHandler ⟨0, false, false, false, false, true, 60, 100⟩).terminal ≠
        .guarded →
       (createJobHandler ⟨0, false, false, false, false, true, 60, 100⟩).terminal =
         .dryRun)) :=
  dryrun_no_side_effects ⟨0, false, false, false, false, true, 60, 100⟩ (by decide)

/-! ## Scheduler and reconciler theorems -/

/-- C7: `AddJob` is idempotent on the job key: adding an annotation whose
key is already registered returns no error and leaves the whole scheduler
state (registration map, cron entries, captured closures) unchanged; and
whenever an `AddJob` returns no error, running it again returns no error
and changes nothing, so `AddJob(a); AddJob(a)` is observably equivalent to
`AddJob(a)`. -/
theorem addJob_idempotent (valid : String → Bool) (s : SchedulerModel)
    (a : CronAnnot) :
    ((lookupJob s a.Key).isSome = true → AddJob valid s a = (s, none)) ∧
    ((AddJob valid s a).2 = none →
      AddJob valid ((AddJob valid s a).1) a = ((AddJob valid s a).1, none)) := by
  constructor
  · intro h
    unfold AddJob
    rw [if_pos h]
  · intro h
    by_cases hreg : (lookupJob s a.Key).isSome = true
    · unfold AddJob
      rw [if_pos hreg, if_pos hreg]
    · by_cases hv : valid a.CronExpr = true
      · have h1 : AddJob valid s a =
            ({ s with
                cronEntries := s.cronEntries ++ [(s.nextId, a)],
                registeredJobs := s.registeredJobs ++ [(a.Key, s.nextId)],
                nextId := s.nextId + 1 }, none) := by
          unfold AddJob
          rw [if_neg hreg, if_pos hv]
        rw [h1]
        have h2 : (lookupJob
            { s with
                cronEntries := s.cronEntries ++ [(s.nextId, a)],
                registeredJobs := s.registeredJobs ++ [(a.Key, s.nextId)],
                nextId := s.nextId + 1 } a.Key).isSome = true := by
          unfold lookupJob
          simp [List.find?_append]
        unfold AddJob
        rw [if_pos h2]
      · exfalso
        unfold AddJob at h
        rw [if_neg hreg, if_neg hv] at h
        exact Option.noConfusion h

/-- C7 witness: a concrete scheduler state holding one registered job; a
duplicate `AddJob` is a no-op without error, and the composition law holds
from the empty state. -/
theorem addJob_idempotent_witness :
    (AddJob (fun _ => true)
        ⟨[(CronJobKey.mk ("o") ("r") ("ci.yml") ("0 8 * * *"), 0)],
         [(0, CronAnnot.mk ("o") ("r") ("ci.yml") ("0 8 * * *") ("main"))], 1, []⟩
        (CronAnnot.mk ("o") ("r") ("ci.yml") ("0 8 * * *") ("main")) =
      (⟨[(CronJobKey.mk ("o") ("r") ("ci.yml") ("0 8 * * *"), 0)],
        [(0, CronAnnot.mk ("o") ("r") ("ci.yml") ("0 8 * * *") ("main"))], 1, []⟩, none)) ∧
    (AddJob (fun _ => true)
        ((AddJob (fun _ => true) ⟨[], [], 0, []⟩
          (CronAnnot.mk ("o") ("r") ("ci.yml") ("0 8 * * *") ("main"))).1)
        (CronAnnot.mk ("o") ("r") ("ci.yml") ("0 8 * * *") ("main")) =
      ((AddJob (fun _ => true) ⟨[], [], 0, []⟩
          (CronAnnot.mk ("o") ("r") ("ci.yml") ("0 8 * * *") ("main"))).1, none)) :=
  ⟨(addJob_idempotent (fun _ => true) _ _).1 (by decide),
   (addJob_idempotent (fun _ => true) _ _).2 (by decide)⟩

/-- C5: every successful `Reconcile` invocation — one whose scan succeeded —
publishes the scan result's skipped list to the observation surface read by
`GetSkippedAnnotations`, replacing whatever list the previous iteration had
published, and returns no error. -/
theorem reconcile_publishes_skipped (valid : String → Bool) (res : ScanRes)
    (s : SchedulerModel) :
    GetSkippedAnnotations (Reconcile valid (Except.ok res) s).1 = res.Skipped ∧
    (Reconcile valid (Except.ok res) s).2 = none := by
  constructor <;> rfl

/-! ## Variable-name theorems -/

/-- `beBytes k` always yields `k` bytes. -/
theorem beBytes_length (k : Nat) : ∀ x, (beBytes k x).length = k := by
  induction k with
  | zero => intro x; rfl
  | succ n ih => intro x; simp [beBytes, ih]

/-- A SHA-256 digest is 32 bytes. -/
theorem sha256_length (msg : List Nat) : (sha256 msg).length = 32 := by
  unfold sha256
  simp [beBytes_length]

/-- `hexDigit` of a nibble is one of the sixteen hexadecimal digits. -/
theorem hexDigit_mem_of_lt (m : Nat) (h : m < 16) : hexDigit m ∈ hexDigits := by
  interval_cases m <;> decide

/-- Every character emitted by `hexUpper` is a hexadecimal digit. -/
theorem hexUpper_mem (bs : List Nat) : ∀ c ∈ hexUpper bs, c ∈ hexDigits := by
  intro c hc
  simp only [hexUpper, List.mem_flatten, List.mem_map] at hc
  obtain ⟨l, ⟨b, _, rfl⟩, hcl⟩ := hc
  simp only [hexByte, List.mem_cons, List.mem_singleton] at hcl
  rcases hcl with h | h | h
  · exact h ▸ hexDigit_mem_of_lt _ (Nat.mod_lt _ (by norm_num))
  · exact h ▸ hexDigit_mem_of_lt _ (Nat.mod_lt _ (by norm_num))
  · cases h

/-- `hexUpper` emits two characters per byte. -/
theorem hexUpper_length (bs : List Nat) : (hexUpper bs).length = 2 * bs.length := by
  induction bs with
  | nil => rfl
  | cons b t ih => simp [hexUpper, hexByte] at ih ⊢; omega

/-- C6: the durable variable name of an annotation depends only on
`WorkflowFile` and `CronExpr` — it is `GHACRON_LAST_` (13 characters)
followed by the uppercase hexadecimal of the first 4 bytes of
`SHA-256(workflowFile ++ ":" ++ cronExpr)` — and for every pair of input
strings it is 21 characters long: the 13-character prefix `GHACRON_LAST_`
and 8 uppercase hexadecimal digits. -/
theorem variableName_shape (a : CronAnnot) :
    variableName a = variableNameOf a.WorkflowFile a.CronExpr ∧
    variableName a = ("GHACRON_LAST_") ++ String.mk (hexUpper
      ((sha256 (utf8Bytes (a.WorkflowFile ++ (":") ++ a.CronExpr))).take 4)) ∧
    (variableName a).length = 21 ∧
    (variableName a).data.take 13 = ("GHACRON_LAST_").data ∧
    ((variableName a).data.drop 13).length = 8 ∧
    (∀ c ∈ (variableName a).data.drop 13, c ∈ hexDigits) := by
  have htk : ((sha256 (utf8Bytes (a.WorkflowFile ++ (":") ++ a.CronExpr))).take 4).length = 4 := by
    rw [List.length_take, sha256_length]
    decide
  have hdata : (variableName a).data = ("GHACRON_LAST_").data ++ hexUpper
      ((sha256 (utf8Bytes (a.WorkflowFile ++ (":") ++ a.CronExpr))).take 4) := by
    rfl
  have hsuf : (variableName a).data.drop 13 = hexUpper
      ((sha256 (utf8Bytes (a.WorkflowFile ++ (":") ++ a.CronExpr))).take 4) := by
    rw [hdata]
    have h13 : (("GHACRON_LAST_").data).length = 13 := by decide
    rw [← h13, List.drop_left]
  refine ⟨rfl, rfl, ?_, ?_, ?_, ?_⟩
  · show (variableName a).data.length = 21
    rw [hdata, List.length_append, hexUpper_length, htk]
    decide
  · rw [hdata]
    have h13 : (("GHACRON_LAST_").data).length = 13 := by decide
    rw [← h13, List.take_left]
  · rw [hsuf, hexUpper_length, htk]
  · rw [hsuf]
    exact hexUpper_mem _

set_option maxRecDepth 10000 in
/-- C6 witness: on the annotation `(ci.yml, 0 8 * * *)` the name length is
21 and the hash digit at position 13 — the character `1` of the concrete
name `GHACRON_LAST_1DA88350` — is one of the sixteen hexadecimal digits. -/
theorem variableName_shape_witness :
    (variableName ⟨("o"), ("r"), ("ci.yml"), ("0 8 * * *"), ("main")⟩).length = 21 ∧
    Char.ofNat 49 ∈ hexDigits :=
  ⟨(variableName_shape ⟨("o"), ("r"), ("ci.yml"), ("0 8 * * *"), ("main")⟩).2.2.1,
   (variableName_shape ⟨("o"), ("r"), ("ci.yml"), ("0 8 * * *"), ("main")⟩).2.2.2.2.2
     (Char.ofNat 49) (by decide)⟩

/-! ## Annotation-parser theorems: `HasWorkflowDispatch` (C8) -/

/-- `dropWhile` commutes with appending a kept element. -/
theorem dropWhile_append_single (p : Char → Bool) (a : Char) (ha : p a = false)
    (xs : List Char) : (xs ++ [a]).dropWhile p = xs.dropWhile p ++ [a] := by
  induction xs with
  | nil => simp [List.dropWhile, ha]
  | cons x t ih =>
    by_cases hx : p x = true
    · simp [List.dropWhile_cons, hx, ih]
    · simp [List.dropWhile_cons, hx]

/-- Trimming a line that starts with `#` keeps the leading `#`. -/
theorem trimGo_hash_head (cs : List Char) :
    ∃ r, trimGo (Char.ofNat 35 :: cs) = Char.ofNat 35 :: r := by
  have h35 : goSpace (Char.ofNat 35) = false := by decide
  unfold trimGo
  rw [List.dropWhile_cons, h35]
  simp only [Bool.false_eq_true, if_false]
  rw [show (Char.ofNat 35 :: cs).reverse = cs.reverse ++ [Char.ofNat 35] by simp]
  rw [dropWhile_append_single _ _ h35]
  refine ⟨(List.dropWhile goSpace cs.reverse).reverse, ?_⟩
  simp

/-- A trimmed line starting with `#` is not an `on:` entry line. -/
theorem onEntryLine_hash (r : List Char) :
    onEntryLine (Char.ofNat 35 :: r) = false := by
  have hdata : ("on:").data = [Char.ofNat 111, Char.ofNat 110, Char.ofNat 58] := rfl
  unfold onEntryLine
  rw [hdata]
  have h1 : decide (Char.ofNat 35 :: r =
      [Char.ofNat 111, Char.ofNat 110, Char.ofNat 58]) = false := by
    apply decide_eq_false
    intro h
    injection h with h1 _
    exact absurd h1 (by decide)
  have h2 : ([Char.ofNat 111, Char.ofNat 110, Char.ofNat 58].isPrefixOf
      (Char.ofNat 35 :: r)) = false := by
    have : (Char.ofNat 111 == Char.ofNat 35) = false := by decide
    simp [List.isPrefixOf, this]
  rw [h1, h2]
  rfl

/-- A line whose first character is `#` satisfies the exit condition of the
`on:` section: its first character is neither space nor tab and its trimmed
content (which also starts with the `#`) is nonempty. -/
theorem exitLine_hash (r t : List Char) :
    exitLine (Char.ofNat 35 :: r) (Char.ofNat 35 :: t) = true := by
  simp [exitLine]

/-- When no line of `ls` re-enters an `on:` section, the scan started
outside the section finds nothing. -/
theorem hwdGo_false_of_no_entry (ls : List (List Char))
    (h : ∀ l ∈ ls, onEntryLine (trimGo l) = false) : hwdGo false ls = false := by
  induction ls with
  | nil => rfl
  | cons l t ih =>
    have hl := h l (by simp)
    rw [hwdGo, hl]
    simp only [Bool.false_eq_true, if_false]
    exact ih fun x hx => h x (by simp [hx])

/-- C8 amended: `HasWorkflowDispatch` leaves the `on:` block at *any* line
whose first character is neither space nor tab and whose trimmed content is
nonempty — including a column-0 comment line (first character `#`).  Hence
for a body consisting of `on:`, then a column-0 comment line, then lines
none of which re-enters an `on:` section, the scan returns false even when
a later block line mentions `workflow_dispatch`. -/
theorem hwd_col0_comment_exits (c : List Char) (ls : List (List Char))
    (hc : ∃ r, c = Char.ofNat 35 :: r)
    (hls : ∀ l ∈ ls, onEntryLine (trimGo l) = false) :
    hwdGo false (("on:").data :: c :: ls) = false := by
  obtain ⟨r, rfl⟩ := hc
  have e1 : onEntryLine (trimGo ("on:").data) = true := by decide
  have e2 : containsSeq wdChars (trimGo ("on:").data) = false := by decide
  have step1 : hwdGo false (("on:").data :: (Char.ofNat 35 :: r) :: ls) =
      hwdGo true ((Char.ofNat 35 :: r) :: ls) := by
    rw [hwdGo, e1, e2]
    simp
  have step2 : hwdGo true ((Char.ofNat 35 :: r) :: ls) = hwdGo false ls := by
    obtain ⟨t, ht⟩ := trimGo_hash_head r
    rw [hwdGo, ht, onEntryLine_hash, exitLine_hash]
    simp
  rw [step1, step2]
  exact hwdGo_false_of_no_entry ls hls

/-- C8 amended witness: `on:`, a column-0 comment, then an indented
`workflow_dispatch:` line — the scan exits at the comment and returns
false. -/
theorem hwd_col0_comment_exits_witness :
    hwdGo false [("on:").data, ("# note").data, ("  workflow_dispatch:").data] =
      false :=
  hwd_col0_comment_exits (("# note").data) [("  workflow_dispatch:").data]
    ⟨(" note").data, rfl⟩ (by decide)

/-- C8 counterexample: a file body with a column-0 comment line between the
`on:` line and an indented line whose trimmed content contains
`workflow_dispatch`.  The claim asserts `HasWorkflowDispatch` still returns
true; the code exits the `on:` block at the comment line (its first
character `#` is neither space nor tab) and returns false. -/
theorem hwd_col0_comment_counterexample :
    HasWorkflowDispatch ("on:\n# note\n  workflow_dispatch:") = false ∧
    ((splitNl ("on:\n# note\n  workflow_dispatch:").data).getD 1 []).head? =
      some (Char.ofNat 35) ∧
    containsSeq wdChars
      (trimGo ((splitNl ("on:\n# note\n  workflow_dispatch:").data).getD 2 [])) =
      true := by
  refine ⟨?_, ?_, ?_⟩ <;> decide

/-! ## Annotation-parser theorems: `ParseAnnotations` (C9) -/

/-- `QuoteFollowed` restricts to the second half of an append. -/
theorem quoteFollowed_append {a b : List Char} (h : QuoteFollowed (a ++ b)) :
    QuoteFollowed b := by
  intro l1 c l2 e hq
  exact h (a ++ l1) c l2 (by rw [e, List.append_assoc]) hq

/-- `QuoteFollowed` restricts to a tail. -/
theorem quoteFollowed_tail {x : Char} {l : List Char}
    (h : QuoteFollowed (x :: l)) : QuoteFollowed l :=
  quoteFollowed_append (a := [x]) h

/-- `QuoteFollowed` restricts to any suffix. -/
theorem quoteFollowed_suffix {l s : List Char} (hs : s <:+ l)
    (h : QuoteFollowed l) : QuoteFollowed s := by
  obtain ⟨a, rfl⟩ := hs
  exact quoteFollowed_append h

/-- On a list whose quotes are all followed by some non-`\s` character, the
lazy capture search never finds a closing quote. -/
theorem findCapture_none {rest : List Char} (h : QuoteFollowed rest) :
    ∀ acc, findCapture acc rest = none := by
  induction rest with
  | nil => intro acc; rfl
  | cons c cs ih =>
    intro acc
    have hcond : (isQuote c && cs.all reSpace) = false := by
      cases hq : isQuote c
      · simp
      · obtain ⟨d, hd, hds⟩ := h [] c cs rfl hq
        cases hall : cs.all reSpace
        · simp
        · exact absurd ((List.all_eq_true.mp hall) d hd) (by simp [hds])
    rw [findCapture, hcond]
    simp only [Bool.false_eq_true, if_false]
    exact ih (quoteFollowed_tail h) _

/-- On such a list the post-quote part of the regexp cannot match. -/
theorem matchAfterQuote_none {rest : List Char} (h : QuoteFollowed rest) :
    matchAfterQuote rest = none := by
  cases rest with
  | nil => rfl
  | cons c0 cs => exact findCapture_none (quoteFollowed_tail h) _

/-- On such a list the post-sentinel part of the regexp cannot match. -/
theorem matchAfterSentinel_none {r2 : List Char} (h : QuoteFollowed r2) :
    matchAfterSentinel r2 = none := by
  cases r2 with
  | nil => rfl
  | cons q rest =>
    rw [matchAfterSentinel]
    split_ifs with hq
    · exact matchAfterQuote_none (quoteFollowed_tail h)
    · rfl

/-- On such a list the post-`#` part of the regexp cannot match. -/
theorem matchAfterHash_none {r : List Char} (h : QuoteFollowed r) :
    matchAfterHash r = none := by
  rw [matchAfterHash]
  split_ifs with hp
  · exact matchAfterSentinel_none
      (quoteFollowed_suffix (List.dropWhile_suffix _)
        (quoteFollowed_suffix (List.drop_suffix _ _)
          (quoteFollowed_suffix (List.dropWhile_suffix _) h)))
  · rfl

/-- A line whose quotes are all followed by some non-`\s` character does
not match the annotation regexp. -/
theorem matchLine_none {l : List Char} (h : QuoteFollowed l) :
    matchLine l = none := by
  rw [matchLine]
  have h1 : QuoteFollowed (l.dropWhile reSpace) :=
    quoteFollowed_suffix (List.dropWhile_suffix _) h
  cases hd : l.dropWhile reSpace with
  | nil => rfl
  | cons c r =>
    rw [hd] at h1
    show (if c = Char.ofNat 35 then matchAfterHash r else none) = none
    split_ifs with hc
    · exact matchAfterHash_none (quoteFollowed_tail h1)
    · rfl

/-- A line of shape `pre ++ q :: t` where `t` contains some non-`\s`
character and no quote character has the `QuoteFollowed` property. -/
theorem quoteFollowed_of_shape (pre t : List Char) (q : Char)
    (ht2 : ∀ c ∈ t, isQuote c = false) (ht1 : ∃ d ∈ t, reSpace d = false) :
    QuoteFollowed (pre ++ q :: t) := by
  induction pre with
  | nil =>
    intro l1 c l2 e hq
    cases l1 with
    | nil =>
      simp only [List.nil_append] at e
      injection e with e1 e2
      exact e2 ▸ ht1
    | cons x l1' =>
      simp only [List.nil_append, List.cons_append] at e
      injection e with _ e2
      exact absurd hq (by simp [ht2 c (by rw [e2]; exact List.mem_append_right _ (by simp))])
  | cons p pre' ih =>
    intro l1 c l2 e hq
    cases l1 with
    | nil =>
      simp only [List.nil_append, List.cons_append] at e
      injection e with _ e2
      obtain ⟨d, hd, hds⟩ := ht1
      exact ⟨d, by rw [← e2]; exact List.mem_append_right _ (by simp [hd]), hds⟩
    | cons x l1' =>
      simp only [List.cons_append] at e
      injection e with _ e2
      exact ih l1' c l2 e2 hq

/-- A list with no newline character is a single line. -/
theorem splitNl_single (l : List Char) (h : ∀ c ∈ l, ¬c = Char.ofNat 10) :
    splitNl l = [l] := by
  induction l with
  | nil => rfl
  | cons c cs ih =>
    rw [splitNl]
    have hc : ¬c = Char.ofNat 10 := h c (by simp)
    rw [if_neg hc, ih fun x hx => h x (by simp [hx])]
    rfl

/-- C9 amended: a line consisting of anything up to a quote character,
followed by trailing content that contains some non-`\s` character but no
quote character, never matches the annotation regexp and contributes
nothing to `ParseAnnotations` — in particular a well-formed annotation
followed by quote-free non-whitespace trailing content is ignored. -/
theorem parse_trailing_no_quote_ignored (pre t : List Char) (q : Char)
    (hq : isQuote q = true)
    (ht1 : ∃ d ∈ t, reSpace d = false)
    (ht2 : ∀ c ∈ t, isQuote c = false)
    (hnl : ∀ c ∈ pre ++ q :: t, ¬c = Char.ofNat 10) :
    ParseAnnotations (String.mk (pre ++ q :: t)) = [] := by
  unfold ParseAnnotations
  rw [show (String.mk (pre ++ q :: t)).data = pre ++ q :: t from rfl]
  rw [splitNl_single _ hnl]
  rw [List.filterMap]
  rw [matchLine_none (quoteFollowed_of_shape pre t q ht2 ht1)]
  rfl

/-- C9 amended witness: the well-formed annotation `# ghacron: "0 8 * * *"`
followed by the quote-free trailing content ` x` contributes nothing. -/
theorem parse_trailing_no_quote_ignored_witness :
    ParseAnnotations (String.mk (("# ghacron: \"0 8 * * *").data ++
      Char.ofNat 34 :: (" x").data)) = [] :=
  parse_trailing_no_quote_ignored (("# ghacron: \"0 8 * * *").data)
    ((" x").data) (Char.ofNat 34) (by decide)
    ⟨Char.ofNat 120, by decide, by decide⟩ (by decide) (by decide)

/-- C9 counterexample: the claim asserts that *any* non-whitespace trailing
content after the closing quote prevents the match.  The first conjunct
shows the prefix alone is a well-formed annotation; the second shows that
appending the trailing content ` "more"` — non-whitespace content after the
closing quote — still yields a (longer) match, because the lazy capture
extends to the quote inside the trailing content. -/
theorem parse_trailing_counterexample :
    ParseAnnotations ("# ghacron: \"0 8 * * *\"") = [("0 8 * * *")] ∧
    ParseAnnotations ("# ghacron: \"0 8 * * *\" \"more\"") =
      [("0 8 * * *\" \"more")] := by
  refine ⟨?_, ?_⟩ <;> decide

end Ghacron
